import Mathlib

/-!
Verification of the `modelTypes/language_classification.py` module of the
PyTorch-Training-UI repository, against its natural-language specification.

The Python module is shallowly embedded below: pure helpers become Lean
functions, the stateful methods become explicit state passing, Python
exceptions become `Except PyErr`, and Python machine integers become `Nat`
and `Int` (the label field and vocabulary ids are small and never overflow).
The `train_val_ratio` hyperparameter and the accuracy computation are
modelled over `ℚ`.
-/

namespace LangClass

/-- One training record, as produced by `Model.load_data`: a text file with
three lines (message, channel, integer label). Strings are modelled as
`List Char`. -/
structure Record where
  message : List Char
  channel : List Char
  label : Int
deriving DecidableEq

/-- Value of a hyperparameter (string, int, float, or bool), mirroring the
kinds of defaults declared in the module-level `hyperparameters` list. -/
inductive HypValue
  | str (s : String)
  | int (n : Int)
  | flt (q : ℚ)
  | bool (b : Bool)
deriving DecidableEq

/-- Modelled from the spec: the `Hyperparameter` class lives in
`modelTypes/modules.py`, which is not part of this repository snapshot.
The spec describes "named, typed, bounded configuration values ... with
defaults"; only the name and the (default) value matter to the claims, so
bounds, labels and descriptions are omitted. -/
structure Hyperparameter where
  name : String
  value : HypValue
deriving DecidableEq

/-- The Python exceptions that the embedded code can raise. -/
inductive PyErr
  | attributeError (msg : String)
  | typeError (msg : String)
  | keyError (msg : String)
  | unboundLocalError (msg : String)
deriving DecidableEq

/-- `str(e)` for an exception: the stored human-readable message. -/
def errMessage : PyErr → String
  | PyErr.attributeError m => m
  | PyErr.typeError m => m
  | PyErr.keyError m => m
  | PyErr.unboundLocalError m => m

/-- `traceback.format_exc()` for an exception, modelled abstractly as a
string derived from the exception. -/
def errTraceback (e : PyErr) : String :=
  "Traceback (most recent call last): " ++ errMessage e

/-- Modelled from the spec: `HyperparameterFetcher.GetHyp` (defined in
`modelTypes/modules.py`, not in this repository snapshot) returns the value
of the declared hyperparameter with the given name.  The spec says only
that a "fixed set of named hyperparameters with defaults" is consumed, so a
lookup of an undeclared name is modelled as a `KeyError`. -/
def fetchHyp (hyps : List Hyperparameter) (nm : String) : Except PyErr HypValue :=
  match hyps.find? (fun h => h.name == nm) with
  | some h => Except.ok h.value
  | none => Except.error (PyErr.keyError nm)

/-! ## CustomDataset: vocabulary and encoding -/

/-- The set of distinct characters appearing in any message or channel of
the data, as accumulated by `build_vocab`'s `vocab.update(...)` loop.  The
Python `set` is modelled as a deduplicated list (one enumeration order of
the set). -/
def charSet (data : List Record) : List Char :=
  (data.foldl (fun acc r => acc ++ r.message ++ r.channel) []).dedup

/-- `{char: idx + 1 for idx, char in enumerate(vocab)}`: assign consecutive
ids starting at `i + 1` to the characters of `l`. -/
def assignIds : List Char → Nat → List (Char × Nat)
  | [], _ => []
  | c :: cs, i => (c, i + 1) :: assignIds cs (i + 1)

/-- `CustomDataset.build_vocab` (lines 101-106): enumerate the distinct
characters of all messages and channels, id `idx + 1` for position `idx`. -/
def buildVocab (data : List Record) : List (Char × Nat) :=
  assignIds (charSet data) 0

/-- `self.vocab.get(char, 0)`: dictionary lookup with default 0. -/
def vocabGet : List (Char × Nat) → Char → Nat
  | [], _ => 0
  | p :: rest, c => if p.1 = c then p.2 else vocabGet rest c

/-- `CustomDataset` (lines 95-119): the record list, the fixed maximum
length, and the vocabulary built from the records. -/
structure CustomDataset where
  data : List Record
  max_length : Nat
  vocab : List (Char × Nat)
deriving DecidableEq

/-- `CustomDataset.__init__`: stores the data and `max_length` and builds
the vocabulary from the data. -/
def mkCustomDataset (data : List Record) (maxLen : Nat) : CustomDataset :=
  { data := data, max_length := maxLen, vocab := buildVocab data }

/-- `CustomDataset.encode` (lines 108-110): per-character ids followed by
`[0] * (self.max_length - len(encoded))`.  Python's `[0] * k` is empty for
`k ≤ 0`, which is exactly `Nat` subtraction in `List.replicate`. -/
def CustomDataset.encode (ds : CustomDataset) (text : List Char) : List Nat :=
  text.map (vocabGet ds.vocab) ++ List.replicate (ds.max_length - text.length) 0

/-- The tensor contents built by `CustomDataset.__getitem__` (lines
115-119): `encode(message)[:max_length] + encode(channel)[:max_length]`. -/
def CustomDataset.encodeSample (ds : CustomDataset) (r : Record) : List Nat :=
  (ds.encode r.message).take ds.max_length ++ (ds.encode r.channel).take ds.max_length

/-- `CustomDataset.__getitem__`: fetch `self.data[idx]` and encode it,
returning the sample tensor contents and the label. -/
def CustomDataset.getItem (ds : CustomDataset) (idx : Nat) : Option (List Nat × Int) :=
  (ds.data.get? idx).map (fun r => (ds.encodeSample r, r.label))

/-! ## GetMaxLength and SplitDataset -/

/-- `Model.GetMaxLength` (lines 121-135): running maximum of the message
lengths only (the loop destructures `message, _, _`), starting at 0. -/
def GetMaxLength (data : List Record) : Nat :=
  data.foldl (fun m r => if r.message.length > m then r.message.length else m) 0

/-- `train_amount = int(train_val_ratio * datapoints)` (line 150): for a
nonnegative ratio Python's `int()` truncation is the floor. -/
def trainAmount (r : ℚ) (n : Nat) : Nat :=
  (r * n).floor.toNat

/-- `val_indices = [i for i in range(datapoints) if i not in train_indices]`
(line 154). -/
def valIndicesOf (n : Nat) (tIdx : List Nat) : List Nat :=
  (List.range n).filter (fun i => decide (i ∉ tIdx))

/-- `Model.SplitDataset` (lines 137-167).  The result of
`random.sample(range(datapoints), train_amount)` is passed in as `tIdx`;
its defining properties (distinct indices below `n`, of the sampled size)
are hypotheses of the theorems below.  `data[i]` for an in-range index is
`List.get?` composed with `filterMap`. -/
def SplitDataset (data : List Record) (r : ℚ) (maxLen : Nat) (tIdx : List Nat) :
    CustomDataset × CustomDataset × Nat × Nat :=
  let n := data.length
  let tAmt := trainAmount r n
  let vAmt := n - tAmt
  let tData := tIdx.filterMap (fun i => data.get? i)
  let vData := (valIndicesOf n tIdx).filterMap (fun i => data.get? i)
  (mkCustomDataset tData maxLen, mkCustomDataset vData maxLen, tAmt, vAmt)

/-! ## Model.__init__ (lines 58-68) -/

/-- The attributes assigned by `Model.__init__`, each `Option`-valued:
`none` means the attribute has not been assigned yet (a read then raises
`AttributeError`). -/
structure InitFields where
  hyperparameters : Option (List Hyperparameter) := none
  requiredTrainingData : Option Unit := none
  additionalTrainingData : Option Unit := none
  modelData : Option Unit := none
  device : Option String := none
  hypFetcher : Option (List Hyperparameter) := none
  error : Option String := none
  exception : Option String := none
deriving DecidableEq

/-- `Model.GetHyp` (lines 70-72) as executed during `__init__`: dereference
`self.hyp_fetcher` (raising `AttributeError` when the attribute is not yet
assigned) and look the name up. -/
def getHypAttr (st : InitFields) (nm : String) : Except PyErr HypValue :=
  match st.hypFetcher with
  | none => Except.error (PyErr.attributeError ("Model object has no attribute hyp_fetcher"))
  | some f => fetchHyp f nm

/-- `Model.__init__` (lines 58-68), statement by statement.  Line 63 reads
`self.GetHyp("device")` before line 65 assigns `self.hyp_fetcher`; there is
no `try`/`except`, so a raised exception propagates (`Except.error`). -/
def modelInit (hyps : List Hyperparameter) : Except PyErr InitFields := do
  let st : InitFields := {}
  let st := { st with hyperparameters := some hyps }
  let st := { st with requiredTrainingData := none }
  let st := { st with additionalTrainingData := none }
  let st := { st with modelData := none }
  let d ← getHypAttr st ("device")
  let st := { st with device := some (if d = HypValue.str ("GPU") then ("cuda") else ("cpu")) }
  let st := { st with hypFetcher := some hyps }
  let st := { st with error := none }
  let st := { st with exception := none }
  Except.ok st

/-! ## Model.Initialize (lines 186-228) and the phase-boundary catch -/

/-- `def load_data(data_folder)` (line 74) declares exactly one parameter. -/
def loadDataParamCount : Nat := 1

/-- `self.load_data(...)` (line 189) is a bound-method call: Python passes
the instance itself plus the explicit argument, i.e. two arguments. -/
def loadDataCallArgCount : Nat := 2

/-- The `TypeError` Python raises for the mismatched call. -/
def loadDataArityError : PyErr :=
  PyErr.typeError ("load_data() takes 1 positional argument but 2 were given")

/-- The call `self.load_data(self.GetHyp("data_folder"))`: the argument
count is checked against the declaration before the body would run.
`wouldLoad` is what `load_data` would return were the call well-formed. -/
def callBoundLoadData (wouldLoad : List Record) : Except PyErr (List Record) :=
  if loadDataCallArgCount = loadDataParamCount then Except.ok wouldLoad
  else Except.error loadDataArityError

/-- Line 193 reads the local `vocab_size` as the first argument of the
`NeuralNetwork(...)` call.  Since `vocab_size` is assigned later in the
function (line 196), Python treats it as a local and raises
`UnboundLocalError` at the read. -/
def vocabSizeRead : Except PyErr Nat :=
  Except.error (PyErr.unboundLocalError
    "local variable vocab_size referenced before assignment")

/-- The body of `Model.Initialize` (lines 189-224, inside the `try`).
`fetch` is the outcome of `self.GetHyp("data_folder")` (line 189, evaluated
first), `dir` is what `load_data` would return, and `rest` abstracts the
unreachable remainder (model construction, dataset split, loaders,
optimizer, metadata) as a computation of the train/val sizes from the data
length and max length. -/
def initBody (fetch : Except PyErr HypValue) (dir : List Record)
    (rest : Nat → Nat → Except PyErr (Nat × Nat)) : Except PyErr (Nat × Nat) := do
  let _folder ← fetch
  let data ← callBoundLoadData dir
  let dataLength := data.length
  let maxLen := GetMaxLength data
  let _vocabSize ← vocabSizeRead
  rest dataLength maxLen

/-- The externally visible state the training controller polls: the
`error`/`exception` fields, plus the train/val sizes that a successful
`Initialize` would record. -/
structure RunState where
  error : Option String := none
  exception : Option String := none
  trainSize : Option Nat := none
  valSize : Option Nat := none
deriving DecidableEq

/-- The `try ... except Exception as e: self.error = str(e);
self.exception = traceback.format_exc()` pattern shared by `Initialize`
(lines 188/226-228), `Train` (lines 232/269-271) and `Save` (lines
275/329-331): an exception from the body is caught at the phase boundary
and stored; a normal body commits its effect. -/
def runPhaseWith {α : Type} (body : Except PyErr α) (onOk : α → RunState → RunState)
    (st : RunState) : RunState :=
  match body with
  | Except.ok a => onOk a st
  | Except.error e =>
      { st with error := some (errMessage e), exception := some (errTraceback e) }

/-- `Model.Initialize` (lines 186-228): run the body under the
phase-boundary catch; on success the split sizes are stored. -/
def initMethod (fetch : Except PyErr HypValue) (dir : List Record)
    (rest : Nat → Nat → Except PyErr (Nat × Nat)) (st : RunState) : RunState :=
  runPhaseWith (initBody fetch dir rest)
    (fun p st => { st with trainSize := some p.1, valSize := some p.2 }) st

/-- `Model.Train` (lines 230-271): the torch training epoch is not
embeddable, so the body is an arbitrary `Except` outcome run under the
same phase-boundary catch. -/
def trainMethod (body : Except PyErr Unit) (st : RunState) : RunState :=
  runPhaseWith body (fun _ st => st) st

/-- `Model.Save` (lines 273-331): like `Train`, the body is an arbitrary
outcome run under the phase-boundary catch. -/
def saveMethod (body : Except PyErr Unit) (st : RunState) : RunState :=
  runPhaseWith body (fun _ st => st) st

/-! ## A static read/write model of the Initialize statements -/

/-- One Python statement with the names it reads and the names it binds. -/
structure PyStmt where
  line : Nat
  reads : List String
  writes : List String

/-- The statements of `Model.Initialize` (lines 189-196), with the local
and attribute names each one reads and writes.  Line 193 reads the local
`vocab_size`; line 196 is its only assignment. -/
def initStmtsModel : List PyStmt :=
  [ { line := 189, reads := ["self.GetHyp", "self.load_data"], writes := ["data"] },
    { line := 190, reads := ["data"], writes := ["self.data_length"] },
    { line := 191, reads := ["self.GetMaxLength", "data"], writes := ["max_length"] },
    { line := 193, reads := ["vocab_size", "self.GetHyp"], writes := ["self.model"] },
    { line := 195, reads := ["self.SplitDataset", "data", "max_length"],
      writes := ["self.train_dataset", "self.val_dataset", "self.train_size", "self.val_size"] },
    { line := 196, reads := ["self.train_dataset"], writes := ["vocab_size"] } ]

/-- Index of the first statement reading the name `v`. -/
def firstReadIdx (stmts : List PyStmt) (v : String) : Nat :=
  stmts.findIdx (fun s => s.reads.contains v)

/-- Index of the first statement writing the name `v`. -/
def firstWriteIdx (stmts : List PyStmt) (v : String) : Nat :=
  stmts.findIdx (fun s => s.writes.contains v)

/-! ## Model.Save: accuracy computation (lines 278-301) -/

/-- Round a rational to the nearest integer, ties to even (the rounding
Python's built-in `round` uses). -/
def pyRoundInt (x : ℚ) : Int :=
  if x - x.floor < 1 / 2 then x.floor
  else if 1 / 2 < x - x.floor then x.floor + 1
  else if x.floor % 2 = 0 then x.floor else x.floor + 1

/-- Python's `round(x, 2)` over exact rationals: round to the nearest
multiple of 1/100, ties to the even multiple. -/
def pyRound2 (q : ℚ) : ℚ :=
  (pyRoundInt (q * 100) : ℚ) / 100

/-- `round(100 * (correct / total), 2)` (lines 288 and 301; the `"%"`
string suffix is omitted). -/
def accuracyOf (correct total : Nat) : ℚ :=
  pyRound2 (100 * ((correct : ℚ) / (total : ℚ)))

/-- `(predicted == labels).sum().item()` accumulated over one batch:
the number of samples whose predicted class equals the label.  `pred`
abstracts `torch.max(model(inputs), 1)` as a function from the encoded
sample to the predicted class index. -/
def countCorrect (pred : List Nat → Int) (batch : List (List Nat × Int)) : Nat :=
  batch.foldl (fun acc s => acc + (if pred s.1 = s.2 then 1 else 0)) 0

/-- `total += labels.size(0)` accumulated over the data loader's batches. -/
def totalOf (batches : List (List (List Nat × Int))) : Nat :=
  batches.foldl (fun acc b => acc + b.length) 0

/-- `correct += (predicted == labels).sum().item()` accumulated over the
data loader's batches. -/
def correctOf (pred : List Nat → Int) (batches : List (List (List Nat × Int))) : Nat :=
  batches.foldl (fun acc b => acc + countCorrect pred b) 0

/-- One accuracy computed by `Model.Save` (either loop, lines 278-288 or
292-301): iterate over the loader's batches counting totals and correct
argmax predictions, then `round(100 * (correct / total), 2)`. -/
def saveAccuracy (pred : List Nat → Int) (batches : List (List (List Nat × Int))) : ℚ :=
  accuracyOf (correctOf pred batches) (totalOf batches)

/-! ## Model.Train: per-epoch setup (lines 233-235, 169-173) -/

/-- The three shuffle hyperparameters read by `Train`'s epoch setup. -/
structure ShuffleFlags where
  shuffle_each_epoch : Bool
  shuffle_train : Bool
  shuffle_val : Bool
deriving DecidableEq

/-- The attributes of the `Model` object relevant to the per-epoch setup. -/
inductive ModelField
  | trainDataloaderF
  | valDataloaderF
  | trainDatasetF
  | valDatasetF
  | vocabF
  | modelF
  | optimizerF
deriving DecidableEq

/-- `Model.CreateTrainDataLoader` (lines 169-170) assigns exactly
`self.train_dataloader`. -/
def createTrainDataLoaderWrites : List ModelField := [ModelField.trainDataloaderF]

/-- `Model.CreateValDataLoader` (lines 172-173) assigns exactly
`self.val_dataloader`. -/
def createValDataLoaderWrites : List ModelField := [ModelField.valDataloaderF]

/-- The attributes assigned by the start of `Model.Train` (lines 233-235):
when `shuffle_each_epoch` holds, rebuild the train loader if
`shuffle_train` and the val loader if `shuffle_val`; nothing otherwise. -/
def trainEpochSetupWrites (f : ShuffleFlags) : List ModelField :=
  if f.shuffle_each_epoch then
    (if f.shuffle_train then createTrainDataLoaderWrites else []) ++
    (if f.shuffle_val then createValDataLoaderWrites else [])
  else []

/-- A `torch.utils.data.DataLoader` as far as the claims need it: the
dataset it wraps and its shuffle flag. -/
structure Loader where
  dataset : CustomDataset
  shuffle : Bool
deriving DecidableEq

/-- `DataLoader(self.train_dataset, ..., shuffle=..., ...)`. -/
def mkLoader (ds : CustomDataset) (sh : Bool) : Loader :=
  { dataset := ds, shuffle := sh }

/-- The `Model` attributes relevant to what persists across epochs. -/
structure TrainerState where
  trainDataset : CustomDataset
  valDataset : CustomDataset
  trainLoader : Loader
  valLoader : Loader
  modelParams : Int
  optimizerState : Int
deriving DecidableEq

/-- The state transformation performed by lines 233-235 of `Model.Train`:
conditionally rebuild the two data loaders from the existing datasets.
No dataset, vocabulary, model or optimizer attribute is touched. -/
def trainEpochSetup (f : ShuffleFlags) (st : TrainerState) : TrainerState :=
  if f.shuffle_each_epoch then
    let st1 :=
      if f.shuffle_train then
        { st with trainLoader := mkLoader st.trainDataset f.shuffle_train }
      else st
    if f.shuffle_val then
      { st1 with valLoader := mkLoader st1.valDataset f.shuffle_val }
    else st1
  else st

/-! ## Concrete inputs -/

/-- The module-level `hyperparameters` declaration (lines 21-41), with the
train/val ratio left as a parameter so the end-to-end scenario (ratio 0.8)
can be expressed.  Path defaults are abstracted to relative strings and
the `device` default to "CPU"; no claim depends on those values.  Note the
declared name is `data_path` (line 22): no hyperparameter named
`data_folder` exists. -/
def hypList (ratio : ℚ) : List Hyperparameter :=
  [ { name := "data_path", value := HypValue.str ("data/language_classification") },
    { name := "model_path", value := HypValue.str ("models/language_classification") },
    { name := "device", value := HypValue.str ("CPU") },
    { name := "epochs", value := HypValue.int 100 },
    { name := "batch_size", value := HypValue.int 64 },
    { name := "classes", value := HypValue.int 2 },
    { name := "learning_rate", value := HypValue.flt (1 / 1000) },
    { name := "max_learning_rate", value := HypValue.flt (1 / 100) },
    { name := "train_val_ratio", value := HypValue.flt ratio },
    { name := "num_workers", value := HypValue.int 0 },
    { name := "dropout", value := HypValue.flt (1 / 5) },
    { name := "patience", value := HypValue.int 25 },
    { name := "shuffle_train", value := HypValue.bool true },
    { name := "shuffle_val", value := HypValue.bool true },
    { name := "shuffle_each_epoch", value := HypValue.bool true },
    { name := "pin_memory", value := HypValue.bool false },
    { name := "drop_last", value := HypValue.bool false },
    { name := "embedding_dim", value := HypValue.int 128 },
    { name := "hidden_dim", value := HypValue.int 512 } ]

/-- The declared defaults (ratio 0.9, line 30). -/
def hyperparametersDecl : List Hyperparameter := hypList (9 / 10)

/-- Ten well-formed synthetic records, five of label 0 and five of
label 1, as in the spec's end-to-end scenario. -/
def syntheticRecords : List Record :=
  [ { message := ['h', 'i'], channel := ['a'], label := 0 },
    { message := ['h', 'o'], channel := ['a'], label := 0 },
    { message := ['h', 'u'], channel := ['a'], label := 0 },
    { message := ['h', 'a'], channel := ['a'], label := 0 },
    { message := ['h', 'e'], channel := ['a'], label := 0 },
    { message := ['y', 'o'], channel := ['b'], label := 1 },
    { message := ['y', 'a'], channel := ['b'], label := 1 },
    { message := ['y', 'e'], channel := ['b'], label := 1 },
    { message := ['y', 'u'], channel := ['b'], label := 1 },
    { message := ['y', 'i'], channel := ['b'], label := 1 } ]

/-- A concrete trainer state for the per-epoch setup scenarios. -/
def trainerState0 : TrainerState :=
  { trainDataset := mkCustomDataset syntheticRecords 2,
    valDataset := mkCustomDataset syntheticRecords 2,
    trainLoader := mkLoader (mkCustomDataset syntheticRecords 2) true,
    valLoader := mkLoader (mkCustomDataset syntheticRecords 2) true,
    modelParams := 7,
    optimizerState := 3 }

/-! ## Helper lemmas -/

theorem encode_length (ds : CustomDataset) (text : List Char) :
    (ds.encode text).length = text.length + (ds.max_length - text.length) := by
  simp [CustomDataset.encode]

theorem encode_take_length (ds : CustomDataset) (text : List Char) :
    ((ds.encode text).take ds.max_length).length = ds.max_length := by
  rw [List.length_take, encode_length]
  omega

theorem length_filterMap_get (data : List Record) (l : List Nat)
    (h : ∀ i ∈ l, i < data.length) :
    (l.filterMap (fun i => data.get? i)).length = l.length := by
  induction l with
  | nil => rfl
  | cons i l ih =>
    have hi : i < data.length := h i (by simp)
    obtain ⟨a, ha⟩ : ∃ a, data.get? i = some a := ⟨_, List.get?_eq_get hi⟩
    rw [List.filterMap_cons, ha]
    simp only [List.length_cons]
    rw [ih (fun j hj => h j (by simp [hj]))]

theorem mem_valIndicesOf {n : Nat} {t : List Nat} {i : Nat} :
    i ∈ valIndicesOf n t ↔ i < n ∧ i ∉ t := by
  simp [valIndicesOf, List.mem_filter, List.mem_range]

theorem valIndicesOf_nodup (n : Nat) (t : List Nat) : (valIndicesOf n t).Nodup :=
  (List.nodup_range n).filter _

theorem valIndicesOf_length {n : Nat} {t : List Nat} (ht : t.Nodup)
    (hsub : ∀ i ∈ t, i < n) :
    (valIndicesOf n t).length = n - t.length := by
  have h1 : (valIndicesOf n t).toFinset = Finset.range n \ t.toFinset := by
    ext i
    simp [mem_valIndicesOf, Finset.mem_sdiff, Finset.mem_range, List.mem_toFinset]
  have h2 : (valIndicesOf n t).length = (valIndicesOf n t).toFinset.card :=
    (List.toFinset_card_of_nodup (valIndicesOf_nodup n t)).symm
  have hsub2 : t.toFinset ⊆ Finset.range n := by
    intro i hi
    rw [List.mem_toFinset] at hi
    rw [Finset.mem_range]
    exact hsub i hi
  rw [h2, h1, Finset.card_sdiff hsub2, Finset.card_range, List.toFinset_card_of_nodup ht]

theorem vocabGet_assignIds_of_not_mem {l : List Char} {c : Char} (h : c ∉ l) (i : Nat) :
    vocabGet (assignIds l i) c = 0 := by
  induction l generalizing i with
  | nil => rfl
  | cons a l ih =>
    have h1 : ¬ a = c := fun hh => h (by simp [hh])
    have h2 : c ∉ l := fun hh => h (List.mem_cons_of_mem _ hh)
    simp [assignIds, vocabGet, h1, ih h2]

theorem vocabGet_assignIds_of_mem {l : List Char} {c : Char} (h : c ∈ l) (i : Nat) :
    i + 1 ≤ vocabGet (assignIds l i) c ∧ vocabGet (assignIds l i) c ≤ i + l.length := by
  induction l generalizing i with
  | nil => simp at h
  | cons a l ih =>
    by_cases hac : a = c
    · simp [assignIds, vocabGet, hac]
    · have hc : c ∈ l := by
        rcases List.mem_cons.mp h with h1 | h1
        · exact absurd h1.symm hac
        · exact h1
      have hrec := ih hc (i + 1)
      simp only [assignIds, vocabGet, hac, if_false, List.length_cons]
      omega

theorem assignIds_map_snd (l : List Char) (i : Nat) :
    (assignIds l i).map Prod.snd = List.range' (i + 1) l.length := by
  induction l generalizing i with
  | nil => rfl
  | cons a l ih =>
    simp [assignIds, List.range', ih (i + 1)]

theorem assignIds_snd_pos {l : List Char} {i : Nat} {p : Char × Nat}
    (h : p ∈ assignIds l i) : i + 1 ≤ p.2 := by
  induction l generalizing i with
  | nil => simp [assignIds] at h
  | cons a l ih =>
    rcases List.mem_cons.mp h with h1 | h1
    · rw [h1]
    · have := ih h1
      omega

theorem mem_foldl_append (data : List Record) (acc : List Char) (c : Char) :
    c ∈ data.foldl (fun a r => a ++ r.message ++ r.channel) acc ↔
      c ∈ acc ∨ ∃ r, r ∈ data ∧ (c ∈ r.message ∨ c ∈ r.channel) := by
  induction data generalizing acc with
  | nil => simp
  | cons r data ih =>
    rw [List.foldl_cons, ih]
    simp only [List.mem_append, List.mem_cons]
    constructor
    · rintro (((h1 | h1) | h1) | ⟨s, hs, h1⟩)
      · exact Or.inl h1
      · exact Or.inr ⟨r, Or.inl rfl, Or.inl h1⟩
      · exact Or.inr ⟨r, Or.inl rfl, Or.inr h1⟩
      · exact Or.inr ⟨s, Or.inr hs, h1⟩
    · rintro (h1 | ⟨s, (hs | hs), h1⟩)
      · exact Or.inl (Or.inl (Or.inl h1))
      · subst hs
        rcases h1 with h1 | h1
        · exact Or.inl (Or.inl (Or.inr h1))
        · exact Or.inl (Or.inr h1)
      · exact Or.inr ⟨s, hs, h1⟩

theorem mem_charSet {data : List Record} {c : Char} :
    c ∈ charSet data ↔ ∃ r, r ∈ data ∧ (c ∈ r.message ∨ c ∈ r.channel) := by
  rw [charSet, List.mem_dedup, mem_foldl_append]
  simp

theorem charSet_nodup (data : List Record) : (charSet data).Nodup :=
  List.nodup_dedup _

theorem max_step_eq (m l : Nat) : (if l > m then l else m) = max m l := by
  rw [Nat.max_def]
  split_ifs <;> omega

theorem getMaxLength_eq_foldl_max (data : List Record) :
    GetMaxLength data = (data.map (fun r => r.message.length)).foldl max 0 := by
  rw [GetMaxLength, List.foldl_map]
  congr 1
  funext m r
  exact max_step_eq m r.message.length

theorem init_le_foldl_max (l : List Nat) (a : Nat) : a ≤ l.foldl max a := by
  induction l generalizing a with
  | nil => simp
  | cons x l ih =>
    calc a ≤ max a x := le_max_left a x
    _ ≤ l.foldl max (max a x) := ih (max a x)

theorem mem_le_foldl_max {l : List Nat} {x : Nat} (h : x ∈ l) (a : Nat) :
    x ≤ l.foldl max a := by
  induction l generalizing a with
  | nil => simp at h
  | cons y l ih =>
    rcases List.mem_cons.mp h with h1 | h1
    · subst h1
      calc x ≤ max a x := le_max_right a x
      _ ≤ l.foldl max (max a x) := init_le_foldl_max l (max a x)
    · exact ih h1 (max a y)

theorem le_getMaxLength {data : List Record} {r : Record} (h : r ∈ data) :
    r.message.length ≤ GetMaxLength data := by
  rw [getMaxLength_eq_foldl_max]
  exact mem_le_foldl_max (List.mem_map_of_mem (fun r => r.message.length) h) 0

theorem encode_take_of_lt {ds : CustomDataset} {text : List Char}
    (h : text.length < ds.max_length) :
    (ds.encode text).take ds.max_length =
      text.map (vocabGet ds.vocab) ++ List.replicate (ds.max_length - text.length) 0 := by
  have hlen : (ds.encode text).length ≤ ds.max_length := by
    rw [encode_length]
    omega
  rw [List.take_of_length_le hlen]
  rfl

theorem encode_take_of_eq {ds : CustomDataset} {text : List Char}
    (h : text.length = ds.max_length) :
    (ds.encode text).take ds.max_length = text.map (vocabGet ds.vocab) := by
  have hlen : (ds.encode text).length ≤ ds.max_length := by
    rw [encode_length]
    omega
  rw [List.take_of_length_le hlen, CustomDataset.encode, h, Nat.sub_self]
  simp

theorem encode_take_of_gt {ds : CustomDataset} {text : List Char}
    (h : ds.max_length < text.length) :
    (ds.encode text).take ds.max_length =
      (text.map (vocabGet ds.vocab)).take ds.max_length := by
  rw [CustomDataset.encode, Nat.sub_eq_zero_of_le (le_of_lt h)]
  simp

theorem encodeSample_length (ds : CustomDataset) (r : Record) :
    (ds.encodeSample r).length = 2 * ds.max_length := by
  rw [CustomDataset.encodeSample, List.length_append, encode_take_length, encode_take_length]
  omega

theorem pyRound2_bounds {q : ℚ} (h0 : 0 ≤ q) (h1 : q ≤ 100) :
    0 ≤ pyRound2 q ∧ pyRound2 q ≤ 100 := by
  have hx0 : (0 : ℚ) ≤ q * 100 := by linarith
  have hx1 : q * 100 ≤ 10000 := by linarith
  have hf0 : (0 : Int) ≤ (q * 100).floor := Int.floor_nonneg.mpr hx0
  have hfle : ((q * 100).floor : ℚ) ≤ q * 100 := Int.floor_le (q * 100)
  have hf1 : (q * 100).floor ≤ 10000 := by
    have : ((q * 100).floor : ℚ) ≤ 10000 := le_trans hfle hx1
    exact_mod_cast this
  have hup : ¬ ((q * 100) - (q * 100).floor < 1 / 2) → (q * 100).floor + 1 ≤ 10000 := by
    intro hge
    have hge2 : (1 : ℚ) / 2 ≤ q * 100 - (q * 100).floor := not_lt.mp hge
    have : ((q * 100).floor : ℚ) < 10000 := by linarith
    have hlt : (q * 100).floor < 10000 := by exact_mod_cast this
    omega
  have hbounds : 0 ≤ pyRoundInt (q * 100) ∧ pyRoundInt (q * 100) ≤ 10000 := by
    unfold pyRoundInt
    split_ifs with hc1 hc2 hc3
    · exact ⟨hf0, hf1⟩
    · exact ⟨by omega, hup hc1⟩
    · exact ⟨hf0, hf1⟩
    · exact ⟨by omega, hup hc1⟩
  constructor
  · apply div_nonneg _ (by norm_num)
    exact_mod_cast hbounds.1
  · rw [pyRound2, div_le_iff₀ (by norm_num : (0 : ℚ) < 100)]
    have : (pyRoundInt (q * 100) : ℚ) ≤ 10000 := by exact_mod_cast hbounds.2
    linarith

theorem ratio_bounds {c t : Nat} (hc : c ≤ t) (ht : 0 < t) :
    0 ≤ 100 * ((c : ℚ) / (t : ℚ)) ∧ 100 * ((c : ℚ) / (t : ℚ)) ≤ 100 := by
  have ht2 : (0 : ℚ) < (t : ℚ) := by exact_mod_cast ht
  have hc2 : (c : ℚ) ≤ (t : ℚ) := by exact_mod_cast hc
  have hdiv0 : (0 : ℚ) ≤ (c : ℚ) / (t : ℚ) :=
    div_nonneg (by positivity) (le_of_lt ht2)
  have hdiv1 : (c : ℚ) / (t : ℚ) ≤ 1 := by
    rw [div_le_one ht2]
    exact hc2
  constructor <;> linarith

theorem foldl_add_shift {α : Type} (g : α → Nat) (l : List α) (a : Nat) :
    l.foldl (fun acc x => acc + g x) a = a + l.foldl (fun acc x => acc + g x) 0 := by
  induction l generalizing a with
  | nil => simp
  | cons x l ih =>
    rw [List.foldl_cons, List.foldl_cons, ih (a + g x), ih (0 + g x)]
    omega

theorem countCorrect_cons (pred : List Nat → Int) (s : List Nat × Int)
    (l : List (List Nat × Int)) :
    countCorrect pred (s :: l) =
      (if pred s.1 = s.2 then 1 else 0) + countCorrect pred l := by
  rw [countCorrect, List.foldl_cons, foldl_add_shift]
  rw [countCorrect]
  omega

theorem countCorrect_append (pred : List Nat → Int) (l1 l2 : List (List Nat × Int)) :
    countCorrect pred (l1 ++ l2) = countCorrect pred l1 + countCorrect pred l2 := by
  induction l1 with
  | nil => simp [countCorrect]
  | cons s l1 ih =>
    rw [List.cons_append, countCorrect_cons, countCorrect_cons, ih]
    omega

theorem countCorrect_le_length (pred : List Nat → Int) (l : List (List Nat × Int)) :
    countCorrect pred l ≤ l.length := by
  induction l with
  | nil => simp [countCorrect]
  | cons s l ih =>
    rw [countCorrect_cons, List.length_cons]
    split_ifs <;> omega

theorem totalOf_cons (b : List (List Nat × Int)) (bs : List (List (List Nat × Int))) :
    totalOf (b :: bs) = b.length + totalOf bs := by
  rw [totalOf, List.foldl_cons, foldl_add_shift]
  rw [totalOf]
  omega

theorem correctOf_cons (pred : List Nat → Int) (b : List (List Nat × Int))
    (bs : List (List (List Nat × Int))) :
    correctOf pred (b :: bs) = countCorrect pred b + correctOf pred bs := by
  rw [correctOf, List.foldl_cons, foldl_add_shift]
  rw [correctOf]
  omega

theorem totalOf_eq_length_flatten (bs : List (List (List Nat × Int))) :
    totalOf bs = bs.flatten.length := by
  induction bs with
  | nil => rfl
  | cons b bs ih =>
    rw [totalOf_cons, List.flatten_cons, List.length_append, ih]

theorem correctOf_eq_countCorrect_flatten (pred : List Nat → Int)
    (bs : List (List (List Nat × Int))) :
    correctOf pred bs = countCorrect pred bs.flatten := by
  induction bs with
  | nil => rfl
  | cons b bs ih =>
    rw [correctOf_cons, List.flatten_cons, countCorrect_append, ih]

theorem correctOf_le_totalOf (pred : List Nat → Int) (bs : List (List (List Nat × Int))) :
    correctOf pred bs ≤ totalOf bs := by
  rw [correctOf_eq_countCorrect_flatten, totalOf_eq_length_flatten]
  exact countCorrect_le_length pred bs.flatten

/-! ## Claim theorems -/

/-- C3: for every hyperparameter list, constructing a `Model` raises an
uncaught exception: `__init__` reads the `device` hyperparameter via
`self.GetHyp`, which dereferences `self.hyp_fetcher` before that attribute
is assigned two lines later, and `__init__` has no `try`/`except`, so the
`AttributeError` propagates to the caller instead of being stored in the
error/exception fields. -/
theorem claim_c3 : ∀ hyps : List Hyperparameter,
    modelInit hyps =
      Except.error (PyErr.attributeError ("Model object has no attribute hyp_fetcher")) :=
  fun _ => rfl

/-- C2: the statement list of `Initialize` reads the local `vocab_size`
(line 193) strictly before its only assignment (line 196); and for every
fetch outcome, directory contents, continuation and starting state,
`Initialize` terminates with the `error` and `exception` fields set and
the train size never assigned — in particular, whenever the
`GetHyp("data_folder")` fetch returns a value, the body fails with exactly
the `TypeError` produced by calling the one-parameter `load_data` through
the instance with the model object as an extra argument. -/
theorem claim_c2 :
    (∀ (fetch : Except PyErr HypValue) (dir : List Record)
      (rest : Nat → Nat → Except PyErr (Nat × Nat)) (st : RunState),
      ((initMethod fetch dir rest st).error).isSome = true ∧
      ((initMethod fetch dir rest st).exception).isSome = true ∧
      (initMethod fetch dir rest st).trainSize = st.trainSize ∧
      (initMethod fetch dir rest st).valSize = st.valSize) ∧
    (∀ (v : HypValue) (dir : List Record) (rest : Nat → Nat → Except PyErr (Nat × Nat)),
      initBody (Except.ok v) dir rest = Except.error loadDataArityError) ∧
    firstReadIdx initStmtsModel ("vocab_size") = 3 ∧
    firstWriteIdx initStmtsModel ("vocab_size") = 5 ∧
    firstReadIdx initStmtsModel ("vocab_size") < firstWriteIdx initStmtsModel ("vocab_size") := by
  refine ⟨?_, ?_, ?_, ?_, ?_⟩
  · intro fetch dir rest st
    cases fetch with
    | ok v => exact ⟨rfl, rfl, rfl, rfl⟩
    | error e => exact ⟨rfl, rfl, rfl, rfl⟩
  · intro v dir rest
    rfl
  · rfl
  · rfl
  · decide

/-- C7: for each of the three phase methods, a failing body is caught at
the phase boundary and stored as the message (`str(e)`) in `error` plus the
stack trace in `exception`, and a successful body commits its effect; in
both cases the method returns normally, so no exception reaches the
caller. -/
theorem claim_c7 :
    ∀ (bT bS : Except PyErr Unit) (fetch : Except PyErr HypValue) (dir : List Record)
      (rest : Nat → Nat → Except PyErr (Nat × Nat)) (st : RunState),
      (∀ e, bT = Except.error e →
        trainMethod bT st =
          { st with error := some (errMessage e), exception := some (errTraceback e) }) ∧
      (∀ u, bT = Except.ok u → trainMethod bT st = st) ∧
      (∀ e, bS = Except.error e →
        saveMethod bS st =
          { st with error := some (errMessage e), exception := some (errTraceback e) }) ∧
      (∀ u, bS = Except.ok u → saveMethod bS st = st) ∧
      (∀ e, initBody fetch dir rest = Except.error e →
        initMethod fetch dir rest st =
          { st with error := some (errMessage e), exception := some (errTraceback e) }) ∧
      (∀ p, initBody fetch dir rest = Except.ok p →
        initMethod fetch dir rest st =
          { st with trainSize := some p.1, valSize := some p.2 }) := by
  intro bT bS fetch dir rest st
  refine ⟨?_, ?_, ?_, ?_, ?_, ?_⟩
  · intro e he
    simp [trainMethod, runPhaseWith, he]
  · intro u hu
    simp [trainMethod, runPhaseWith, hu]
  · intro e he
    simp [saveMethod, runPhaseWith, he]
  · intro u hu
    simp [saveMethod, runPhaseWith, hu]
  · intro e he
    simp [initMethod, runPhaseWith, he]
  · intro p hp
    simp [initMethod, runPhaseWith, hp]

/-- Witness for C7 at a concrete failing Train body and a concrete
successful Save body. -/
theorem claim_c7_witness :
    trainMethod (Except.error (PyErr.typeError ("boom"))) {} =
      { error := some (errMessage (PyErr.typeError ("boom"))),
        exception := some (errTraceback (PyErr.typeError ("boom"))),
        trainSize := none, valSize := none } ∧
    saveMethod (Except.ok ()) {} = ({} : RunState) :=
  ⟨(claim_c7 (Except.error (PyErr.typeError ("boom"))) (Except.ok ())
      (Except.ok (HypValue.int 0)) [] (fun a b => Except.ok (a, b)) {}).1
      (PyErr.typeError ("boom")) rfl,
   (claim_c7 (Except.error (PyErr.typeError ("boom"))) (Except.ok ())
      (Except.ok (HypValue.int 0)) [] (fun a b => Except.ok (a, b)) {}).2.2.2.1 () rfl⟩

/-- C4: the dataset's encoding pipeline (`encode` followed by the
`[:max_length]` retrieval in `__getitem__`) pads a short string with zeros
on the right to exactly `max_length`, leaves a string of exactly
`max_length` unchanged, truncates a longer string by dropping the trailing
characters, always yields `max_length` ids per field, and every sample
returned by `__getitem__` has length exactly `2 * max_length`. -/
theorem claim_c4 :
    ∀ (ds : CustomDataset) (text : List Char) (r : Record) (idx : Nat) (s : List Nat × Int),
      (text.length < ds.max_length →
        (ds.encode text).take ds.max_length =
          text.map (vocabGet ds.vocab) ++ List.replicate (ds.max_length - text.length) 0) ∧
      (text.length = ds.max_length →
        (ds.encode text).take ds.max_length = text.map (vocabGet ds.vocab)) ∧
      (ds.max_length < text.length →
        (ds.encode text).take ds.max_length =
          (text.map (vocabGet ds.vocab)).take ds.max_length) ∧
      ((ds.encode text).take ds.max_length).length = ds.max_length ∧
      (ds.encodeSample r).length = 2 * ds.max_length ∧
      (ds.getItem idx = some s → s.1.length = 2 * ds.max_length) := by
  intro ds text r idx s
  refine ⟨fun h => encode_take_of_lt h, fun h => encode_take_of_eq h,
    fun h => encode_take_of_gt h, encode_take_length ds text, encodeSample_length ds r, ?_⟩
  intro hs
  rw [CustomDataset.getItem] at hs
  obtain ⟨rr, _, heq⟩ := Option.map_eq_some'.mp hs
  rw [← heq]
  exact encodeSample_length ds rr

/-- Witness for C4: a dataset with `max_length` 3, a one-character string
(padded), a three-character string (unchanged) and a four-character string
(truncated). -/
theorem claim_c4_witness :
    ((['a'] : List Char).length < (mkCustomDataset [⟨['a', 'b'], ['c'], 0⟩] 3).max_length) ∧
    ((mkCustomDataset [⟨['a', 'b'], ['c'], 0⟩] 3).encode ['a']).take
        (mkCustomDataset [⟨['a', 'b'], ['c'], 0⟩] 3).max_length =
      (['a'] : List Char).map (vocabGet (mkCustomDataset [⟨['a', 'b'], ['c'], 0⟩] 3).vocab) ++
        List.replicate
          ((mkCustomDataset [⟨['a', 'b'], ['c'], 0⟩] 3).max_length -
            (['a'] : List Char).length) 0 ∧
    ((mkCustomDataset [⟨['a', 'b'], ['c'], 0⟩] 3).max_length <
        (['a', 'b', 'c', 'd'] : List Char).length) ∧
    ((mkCustomDataset [⟨['a', 'b'], ['c'], 0⟩] 3).encode ['a', 'b', 'c', 'd']).take
        (mkCustomDataset [⟨['a', 'b'], ['c'], 0⟩] 3).max_length =
      ((['a', 'b', 'c', 'd'] : List Char).map
        (vocabGet (mkCustomDataset [⟨['a', 'b'], ['c'], 0⟩] 3).vocab)).take
        (mkCustomDataset [⟨['a', 'b'], ['c'], 0⟩] 3).max_length :=
  ⟨by decide,
   (claim_c4 (mkCustomDataset [⟨['a', 'b'], ['c'], 0⟩] 3) ['a'] ⟨['a'], ['c'], 0⟩ 0
     ([], 0)).1 (by decide),
   by decide,
   (claim_c4 (mkCustomDataset [⟨['a', 'b'], ['c'], 0⟩] 3) ['a', 'b', 'c', 'd']
     ⟨['a'], ['c'], 0⟩ 0 ([], 0)).2.2.1 (by decide)⟩

/-- C6: `build_vocab` assigns every distinct character of any message or
channel a non-zero id, the assigned ids are exactly `1..N` for `N`
distinct characters (0 is never assigned), and `encode`'s lookup maps any
character not in the vocabulary to 0. -/
theorem claim_c6 : ∀ data : List Record,
    ((buildVocab data).map Prod.snd = List.range' 1 (charSet data).length) ∧
    (∀ p, p ∈ buildVocab data → p.2 ≠ 0) ∧
    (∀ c, c ∈ charSet data →
      1 ≤ vocabGet (buildVocab data) c ∧
      vocabGet (buildVocab data) c ≤ (charSet data).length) ∧
    (∀ c, c ∉ charSet data → vocabGet (buildVocab data) c = 0) ∧
    (∀ c, c ∈ charSet data ↔ ∃ r, r ∈ data ∧ (c ∈ r.message ∨ c ∈ r.channel)) ∧
    (∀ (m : Nat) (text : List Char),
      (mkCustomDataset data m).encode text =
        text.map (vocabGet (buildVocab data)) ++ List.replicate (m - text.length) 0) := by
  intro data
  refine ⟨assignIds_map_snd (charSet data) 0, ?_, ?_, ?_,
    fun c => mem_charSet, fun m text => rfl⟩
  · intro p hp
    have := assignIds_snd_pos hp
    omega
  · intro c hc
    have h := vocabGet_assignIds_of_mem hc 0
    show 1 ≤ vocabGet (assignIds (charSet data) 0) c ∧
      vocabGet (assignIds (charSet data) 0) c ≤ (charSet data).length
    omega
  · intro c hc
    exact vocabGet_assignIds_of_not_mem hc 0

/-- Witness for C6: in a one-record dataset the unseen character `z` maps
to 0 and the seen character `a` has an id between 1 and 3. -/
theorem claim_c6_witness :
    ('z' ∉ charSet [⟨['a', 'b'], ['c'], 0⟩]) ∧
    vocabGet (buildVocab [(⟨['a', 'b'], ['c'], 0⟩ : Record)]) 'z' = 0 ∧
    ('a' ∈ charSet [⟨['a', 'b'], ['c'], 0⟩]) ∧
    1 ≤ vocabGet (buildVocab [(⟨['a', 'b'], ['c'], 0⟩ : Record)]) 'a' :=
  ⟨by decide,
   (claim_c6 [⟨['a', 'b'], ['c'], 0⟩]).2.2.2.1 'z' (by decide),
   by decide,
   ((claim_c6 [⟨['a', 'b'], ['c'], 0⟩]).2.2.1 'a' (by decide)).1⟩

/-- C10: `GetMaxLength` is the maximum over message lengths only (channel
lengths never contribute), it is 0 on an empty dataset, and a channel
longer than the longest message is truncated to the longest message's
length by the encoding pipeline. -/
theorem claim_c10 :
    (GetMaxLength [] = 0) ∧
    (∀ (data : List Record) (g : Record → List Char),
      GetMaxLength (data.map (fun r => { r with channel := g r })) = GetMaxLength data) ∧
    (∀ data : List Record,
      GetMaxLength data = (data.map (fun r => r.message.length)).foldl max 0) ∧
    (∀ (data : List Record) (r : Record), r ∈ data →
      r.message.length ≤ GetMaxLength data) ∧
    (∀ (data : List Record) (r : Record),
      GetMaxLength data < r.channel.length →
      ((mkCustomDataset data (GetMaxLength data)).encode r.channel).take (GetMaxLength data) =
        (r.channel.map (vocabGet (buildVocab data))).take (GetMaxLength data) ∧
      (((mkCustomDataset data (GetMaxLength data)).encode r.channel).take
          (GetMaxLength data)).length = GetMaxLength data) := by
  refine ⟨rfl, ?_, getMaxLength_eq_foldl_max, fun data r h => le_getMaxLength h, ?_⟩
  · intro data g
    rw [GetMaxLength, GetMaxLength, List.foldl_map]
  · intro data r h
    exact ⟨@encode_take_of_gt (mkCustomDataset data (GetMaxLength data)) r.channel h,
      encode_take_length (mkCustomDataset data (GetMaxLength data)) r.channel⟩

/-- Witness for C10: one record with message `a` and channel `bcd`; the
max length is 1 and the encoded channel is cut to length 1. -/
theorem claim_c10_witness :
    GetMaxLength [(⟨['a'], ['b', 'c', 'd'], 0⟩ : Record)] <
      (⟨['a'], ['b', 'c', 'd'], 0⟩ : Record).channel.length ∧
    (((mkCustomDataset [⟨['a'], ['b', 'c', 'd'], 0⟩]
          (GetMaxLength [⟨['a'], ['b', 'c', 'd'], 0⟩])).encode
        (⟨['a'], ['b', 'c', 'd'], 0⟩ : Record).channel).take
        (GetMaxLength [⟨['a'], ['b', 'c', 'd'], 0⟩])).length =
      GetMaxLength [(⟨['a'], ['b', 'c', 'd'], 0⟩ : Record)] :=
  ⟨by decide,
   (claim_c10.2.2.2.2 [⟨['a'], ['b', 'c', 'd'], 0⟩] ⟨['a'], ['b', 'c', 'd'], 0⟩
     (by decide)).2⟩

/-- The split arithmetic of the end-to-end scenario: ratio 4/5 on ten
records gives a train count of 8. -/
theorem trainAmount_eight : trainAmount (4 / 5) syntheticRecords.length = 8 := by
  have hlen : syntheticRecords.length = 10 := rfl
  rw [trainAmount, hlen]
  have h : (4 / 5 : ℚ) * ((10 : Nat) : ℚ) = 8 := by norm_num
  rw [h]
  rfl

/-- C5: for a train-index sample without replacement of the prescribed
size, `SplitDataset` yields a train set of size `⌊r·n⌋`, a validation set
of size `n − ⌊r·n⌋`, returns those two counts, the validation indices are
exactly the complement of the train indices in `{0,…,n−1}`, and every
index below `n` lies in exactly one of the two index sets. -/
theorem claim_c5 :
    ∀ (data : List Record) (r : ℚ) (maxLen : Nat) (tIdx : List Nat),
      0 ≤ r → r ≤ 99 / 100 → tIdx.Nodup → (∀ i ∈ tIdx, i < data.length) →
      tIdx.length = trainAmount r data.length →
      ((SplitDataset data r maxLen tIdx).1.data.length = trainAmount r data.length) ∧
      ((SplitDataset data r maxLen tIdx).2.1.data.length =
        data.length - trainAmount r data.length) ∧
      ((SplitDataset data r maxLen tIdx).2.2.1 = trainAmount r data.length) ∧
      ((SplitDataset data r maxLen tIdx).2.2.2 =
        data.length - trainAmount r data.length) ∧
      ((trainAmount r data.length : Int) = (r * (data.length : ℚ)).floor) ∧
      (∀ i, i ∈ valIndicesOf data.length tIdx ↔ i < data.length ∧ i ∉ tIdx) ∧
      (∀ i, i < data.length →
        (i ∈ tIdx ∧ i ∉ valIndicesOf data.length tIdx) ∨
        (i ∉ tIdx ∧ i ∈ valIndicesOf data.length tIdx)) := by
  intro data r maxLen tIdx hr0 hr1 hnd hlt hlen
  refine ⟨?_, ?_, rfl, rfl, ?_, fun i => mem_valIndicesOf, ?_⟩
  · show (tIdx.filterMap (fun i => data.get? i)).length = trainAmount r data.length
    rw [length_filterMap_get data tIdx hlt, hlen]
  · show ((valIndicesOf data.length tIdx).filterMap (fun i => data.get? i)).length =
      data.length - trainAmount r data.length
    rw [length_filterMap_get data _ (fun i hi => (mem_valIndicesOf.mp hi).1),
      valIndicesOf_length hnd hlt, hlen]
  · rw [trainAmount, Int.toNat_of_nonneg]
    exact Int.floor_nonneg.mpr (mul_nonneg hr0 (Nat.cast_nonneg data.length))
  · intro i hi
    by_cases hmem : i ∈ tIdx
    · exact Or.inl ⟨hmem, fun hv => (mem_valIndicesOf.mp hv).2 hmem⟩
    · exact Or.inr ⟨hmem, mem_valIndicesOf.mpr ⟨hi, hmem⟩⟩

/-- Witness for C5: ten records, ratio 4/5 and the sample
`[0,…,7]`: the split reports train size 8 and validation size 2. -/
theorem claim_c5_witness :
    ([0, 1, 2, 3, 4, 5, 6, 7] : List Nat).length =
      trainAmount (4 / 5) syntheticRecords.length ∧
    (SplitDataset syntheticRecords (4 / 5) 2 [0, 1, 2, 3, 4, 5, 6, 7]).2.2.1 =
      trainAmount (4 / 5) syntheticRecords.length ∧
    (SplitDataset syntheticRecords (4 / 5) 2 [0, 1, 2, 3, 4, 5, 6, 7]).2.2.2 =
      syntheticRecords.length - trainAmount (4 / 5) syntheticRecords.length :=
  ⟨by rw [trainAmount_eight]; rfl,
   (claim_c5 syntheticRecords (4 / 5) 2 [0, 1, 2, 3, 4, 5, 6, 7] (by norm_num)
     (by norm_num) (by decide) (by decide) (by rw [trainAmount_eight]; rfl)).2.2.1,
   (claim_c5 syntheticRecords (4 / 5) 2 [0, 1, 2, 3, 4, 5, 6, 7] (by norm_num)
     (by norm_num) (by decide) (by decide) (by rw [trainAmount_eight]; rfl)).2.2.2.1⟩

/-- C8: for every nonempty evaluation set, the accuracy computed by
`Save`'s loop is in `[0, 100]` and equals (correct argmax predictions /
total predictions) × 100 rounded to 2 decimal places. -/
theorem claim_c8 :
    ∀ (pred : List Nat → Int) (batches : List (List (List Nat × Int))),
      0 < totalOf batches →
      0 ≤ saveAccuracy pred batches ∧
      saveAccuracy pred batches ≤ 100 ∧
      saveAccuracy pred batches =
        pyRound2 (100 * ((countCorrect pred batches.flatten : ℚ) /
          (batches.flatten.length : ℚ))) ∧
      correctOf pred batches ≤ totalOf batches := by
  intro pred batches ht
  have hc := correctOf_le_totalOf pred batches
  have hb := ratio_bounds hc ht
  have hr := pyRound2_bounds hb.1 hb.2
  refine ⟨hr.1, hr.2, ?_, hc⟩
  rw [saveAccuracy, accuracyOf, correctOf_eq_countCorrect_flatten,
    totalOf_eq_length_flatten]

/-- Witness for C8: one batch of two samples with the constant-0
predictor; the total is positive and the accuracy lies in `[0, 100]`. -/
theorem claim_c8_witness :
    0 < totalOf [[([1], 0), ([2], 1)]] ∧
    0 ≤ saveAccuracy (fun _ => 0) [[([1], 0), ([2], 1)]] ∧
    saveAccuracy (fun _ => 0) [[([1], 0), ([2], 1)]] ≤ 100 :=
  ⟨by decide,
   (claim_c8 (fun _ => 0) [[([1], 0), ([2], 1)]] (by decide)).1,
   (claim_c8 (fun _ => 0) [[([1], 0), ([2], 1)]] (by decide)).2.1⟩

/-- C9 counterexample: with all shuffle flags enabled, the epoch-start
step of `Train` writes only the two data-loader attributes: neither
dataset, nor the vocabulary, is rebuilt — refuting the claim that each
`Train` call rebuilds the vocabulary and datasets. -/
theorem claim_c9_counterexample :
    trainEpochSetupWrites ⟨true, true, true⟩ =
      [ModelField.trainDataloaderF, ModelField.valDataloaderF] ∧
    ModelField.trainDatasetF ∉ trainEpochSetupWrites ⟨true, true, true⟩ ∧
    ModelField.valDatasetF ∉ trainEpochSetupWrites ⟨true, true, true⟩ ∧
    ModelField.vocabF ∉ trainEpochSetupWrites ⟨true, true, true⟩ ∧
    (trainEpochSetup ⟨true, true, true⟩ trainerState0).trainDataset =
      trainerState0.trainDataset ∧
    (trainEpochSetup ⟨true, true, true⟩ trainerState0).trainDataset.vocab =
      trainerState0.trainDataset.vocab ∧
    (trainEpochSetup ⟨true, true, true⟩ trainerState0).valDataset =
      trainerState0.valDataset :=
  ⟨rfl, by decide, by decide, by decide, rfl, rfl, rfl⟩

/-- C9 (amended): when the shuffle-each-epoch option is enabled, each
`Train` call rebuilds the train/validation data loaders (each only when
its own shuffle flag is also set) from the existing datasets; the
datasets, the vocabulary they contain, and the model and optimizer state
are never touched by the epoch-start step and persist unchanged across
epochs. -/
theorem claim_c9 : ∀ (f : ShuffleFlags) (st : TrainerState),
    (trainEpochSetup f st).trainDataset = st.trainDataset ∧
    (trainEpochSetup f st).valDataset = st.valDataset ∧
    (trainEpochSetup f st).modelParams = st.modelParams ∧
    (trainEpochSetup f st).optimizerState = st.optimizerState ∧
    (ModelField.trainDataloaderF ∈ trainEpochSetupWrites f ↔
      f.shuffle_each_epoch = true ∧ f.shuffle_train = true) ∧
    (ModelField.valDataloaderF ∈ trainEpochSetupWrites f ↔
      f.shuffle_each_epoch = true ∧ f.shuffle_val = true) ∧
    (∀ x, x ∈ trainEpochSetupWrites f →
      x = ModelField.trainDataloaderF ∨ x = ModelField.valDataloaderF) ∧
    (f.shuffle_each_epoch = true → f.shuffle_train = true →
      (trainEpochSetup f st).trainLoader = mkLoader st.trainDataset true) ∧
    (f.shuffle_each_epoch = true → f.shuffle_val = true →
      (trainEpochSetup f st).valLoader = mkLoader st.valDataset true) ∧
    (f.shuffle_each_epoch = false → trainEpochSetup f st = st) := by
  intro f st
  rcases f with ⟨e, t, v⟩
  cases e <;> cases t <;> cases v <;>
    simp [trainEpochSetup, trainEpochSetupWrites, createTrainDataLoaderWrites,
      createValDataLoaderWrites, mkLoader]

/-- Witness for C9 at concrete flag settings: disabled shuffle leaves the
state unchanged; fully enabled shuffle rebuilds the train loader from the
existing train dataset. -/
theorem claim_c9_witness :
    trainEpochSetup ⟨false, true, true⟩ trainerState0 = trainerState0 ∧
    (trainEpochSetup ⟨true, true, true⟩ trainerState0).trainLoader =
      mkLoader trainerState0.trainDataset true :=
  ⟨(claim_c9 ⟨false, true, true⟩ trainerState0).2.2.2.2.2.2.2.2.2 rfl,
   (claim_c9 ⟨true, true, true⟩ trainerState0).2.2.2.2.2.2.2.1 rfl rfl⟩

/-- C1 (documents the defect): for the spec's end-to-end scenario — ten
well-formed synthetic records (five per class) and ratio 0.8 — the split
arithmetic would give train size 8 and validation size 2, but `Initialize`
stops with the error and exception fields set instead: the declared
hyperparameter is `data_path` so `GetHyp("data_folder")` fails, and even
with a fetched value the bound call `self.load_data(...)` passes two
arguments to the one-parameter `load_data`; `train_size` is never
assigned, so the subsequent `Train` call cannot succeed as the spec
expects. -/
theorem claim_c1 :
    trainAmount (4 / 5) syntheticRecords.length = 8 ∧
    syntheticRecords.length - trainAmount (4 / 5) syntheticRecords.length = 2 ∧
    fetchHyp (hypList (4 / 5)) ("data_folder") =
      Except.error (PyErr.keyError ("data_folder")) ∧
    ((initMethod (fetchHyp (hypList (4 / 5)) ("data_folder")) syntheticRecords
        (fun _ _ => Except.ok (8, 2)) {}).error).isSome = true ∧
    ((initMethod (fetchHyp (hypList (4 / 5)) ("data_folder")) syntheticRecords
        (fun _ _ => Except.ok (8, 2)) {}).exception).isSome = true ∧
    (initMethod (fetchHyp (hypList (4 / 5)) ("data_folder")) syntheticRecords
        (fun _ _ => Except.ok (8, 2)) {}).trainSize = none := by
  refine ⟨trainAmount_eight, ?_, rfl, rfl, rfl, rfl⟩
  rw [trainAmount_eight]
  rfl

end LangClass
